/-
Verification of the two-tier response cache of the pt-airport-chaos-predictor
repository.

The development shallowly embeds the cache core of the repository:

* `ApiCache` — the server-side in-process cache (`lib/cache.js`),
* `FrontendCache` — the client-side memory + localStorage cache (the
  `FrontendCache` class of the frontend script),
* `handler` / `fetchAndDisplayPrediction` — the fetch-with-cache call sites
  (`api/predict.js` and the frontend script).

Conventions of the embedding:

* Wall-clock time (`Date.now()`) is passed explicitly as a `Nat` parameter
  `now` (milliseconds).
* A JS `Map` and the browser `localStorage` are both modelled as association
  lists `List (String × β)`.  `aset` implements `Map.set` / `setItem`
  (replace the binding for the key), `adelete` implements `Map.delete` /
  `removeItem`, and `List.lookup` implements `Map.get` / `getItem`.  The
  verified properties never observe iteration order of the memory map, and
  the iteration order of `localStorage.key(i)` is implementation-defined in
  JS, so the list order carried by the model is one admissible order.
* Payloads are opaque values of a type parameter `α` (the caches never
  inspect them); JSON serialization to localStorage is the identity on this
  model, matching JSON round-tripping of the serializable payloads the
  callers store.
* `localStorage.setItem` may throw (quota exceeded).  The model threads
  explicit failure flags for the two write attempts performed by
  `FrontendCache.set`; all other storage operations cannot throw in a way
  the source observes.
* JS compares strings (default `Array.prototype.sort`, used on parameter
  names) by UTF-16 code units; the model compares by code points, via the
  lexicographic order on the underlying character lists, which agrees with
  the JS order on all strings without surrogate pairs.
-/
import Mathlib

namespace PTAirport

/-! ### String ordering (default JS sort comparator on parameter names) -/

/-- The string order used by `Object.keys(params).sort()`: lexicographic on
the underlying characters.  (Lean's own `String.le` does not reduce inside
the kernel, so the order is stated on `String.data`.) -/
def strLeP (a b : String) : Prop := a.data ≤ b.data

instance : DecidableRel strLeP := fun _ _ => inferInstanceAs (Decidable (_ ≤ _))

instance : IsTotal String strLeP := ⟨fun a b => le_total a.data b.data⟩

instance : IsTrans String strLeP := ⟨fun _ _ _ h₁ h₂ => le_trans h₁ h₂⟩

instance : IsAntisymm String strLeP := ⟨fun _ _ h₁ h₂ => String.ext (le_antisymm h₁ h₂)⟩

/-- String prefix test on the underlying characters, mirroring JS
`String.prototype.startsWith`.  (Lean's `String.startsWith` does not reduce
inside the kernel.) -/
def strStartsWith (s pre : String) : Bool := pre.data.isPrefixOf s.data

/-! ### Association-list stores (JS `Map` / `localStorage`) -/

/-- A keyed store: the backing representation for both the in-memory `Map`s
and `localStorage`. -/
abbrev Store (β : Type) := List (String × β)

/-- Binding removal: `Map.delete` / `localStorage.removeItem` (no error when
the key is absent). -/
def adelete (l : Store β) (k : String) : Store β :=
  l.filter fun p => !(p.1 == k)

/-- Binding replacement: `Map.set` / `localStorage.setItem` (overwrites any
existing binding for the key). -/
def aset (l : Store β) (k : String) (v : β) : Store β :=
  (k, v) :: adelete l k

/-- The keys of the store are pairwise distinct; holds for every store the
system builds, since all writes go through `aset`. -/
def keysNodup (l : Store β) : Prop := (l.map Prod.fst).Nodup

instance (l : Store β) : Decidable (keysNodup l) :=
  inferInstanceAs (Decidable ((l.map Prod.fst).Nodup))

theorem lookup_cons (p : String × β) (t : Store β) (k : String) :
    List.lookup k (p :: t) = if k = p.1 then some p.2 else List.lookup k t := by
  rcases p with ⟨a, v⟩
  by_cases h : k = a
  · simp [List.lookup, h]
  · simp [List.lookup, h, beq_eq_false_iff_ne.mpr h]

theorem lookup_adelete_self (l : Store β) (k : String) :
    List.lookup k (adelete l k) = none := by
  induction l with
  | nil => rfl
  | cons p t ih =>
    by_cases h : p.1 = k
    · simpa [adelete, h] using ih
    · rw [show adelete (p :: t) k = p :: adelete t k by
        simp [adelete, beq_eq_false_iff_ne.mpr h]]
      rw [lookup_cons]
      simp [Ne.symm h, ih]

theorem lookup_adelete_ne (l : Store β) {k k' : String} (h : k' ≠ k) :
    List.lookup k' (adelete l k) = List.lookup k' l := by
  induction l with
  | nil => rfl
  | cons p t ih =>
    by_cases hp : p.1 = k
    · rw [show adelete (p :: t) k = adelete t k by simp [adelete, hp]]
      rw [lookup_cons, if_neg (by rw [hp]; exact h), ih]
    · rw [show adelete (p :: t) k = p :: adelete t k by
        simp [adelete, beq_eq_false_iff_ne.mpr hp]]
      rw [lookup_cons, lookup_cons, ih]

theorem lookup_aset_self (l : Store β) (k : String) (v : β) :
    List.lookup k (aset l k v) = some v := by
  rw [aset, lookup_cons]; simp

theorem lookup_aset_ne (l : Store β) {k k' : String} (v : β) (h : k' ≠ k) :
    List.lookup k' (aset l k v) = List.lookup k' l := by
  rw [aset, lookup_cons, if_neg h, lookup_adelete_ne l h]

/-- Looking up through a filter whose predicate only inspects the key. -/
theorem lookup_filter_key (l : Store β) (q : String → Bool) (k : String) :
    List.lookup k (l.filter fun p => q p.1) =
      if q k then List.lookup k l else none := by
  induction l with
  | nil => simp
  | cons p t ih =>
    by_cases hq : q p.1
    · rw [show (p :: t).filter (fun p' => q p'.1) = p :: t.filter fun p' => q p'.1 by
        simp [List.filter, hq]]
      rw [lookup_cons, lookup_cons]
      by_cases hk : k = p.1
      · simp [hk, hq]
      · simp [hk, ih]
    · rw [show (p :: t).filter (fun p' => q p'.1) = t.filter fun p' => q p'.1 by
        simp [List.filter, hq]]
      rw [lookup_cons, ih]
      by_cases hk : k = p.1
      · simp [hk, hq]
      · simp [hk]

theorem lookup_eq_some_mem {l : Store β} {k : String} {v : β}
    (h : List.lookup k l = some v) : (k, v) ∈ l := by
  induction l with
  | nil => simp at h
  | cons p t ih =>
    rw [lookup_cons] at h
    by_cases hk : k = p.1
    · rw [if_pos hk] at h
      cases h
      subst hk
      simp
    · rw [if_neg hk] at h
      exact List.mem_cons_of_mem _ (ih h)

theorem mem_lookup_of_nodup {l : Store β} {k : String} {v : β}
    (nd : keysNodup l) (h : (k, v) ∈ l) : List.lookup k l = some v := by
  induction l with
  | nil => simp at h
  | cons p t ih =>
    have nd' : keysNodup t := by
      simp only [keysNodup, List.map_cons, List.nodup_cons] at nd
      exact nd.2
    rw [lookup_cons]
    rcases List.mem_cons.mp h with h | h
    · cases h; simp
    · have hk : k ≠ p.1 := by
        intro he
        simp only [keysNodup, List.map_cons, List.nodup_cons] at nd
        exact nd.1 (List.mem_map.mpr ⟨(k, v), h, he⟩)
      rw [if_neg hk, ih nd' h]

theorem keysNodup_adelete {l : Store β} (nd : keysNodup l) (k : String) :
    keysNodup (adelete l k) :=
  (((List.filter_sublist l).map Prod.fst).nodup nd)

theorem keysNodup_aset {l : Store β} (nd : keysNodup l) (k : String) (v : β) :
    keysNodup (aset l k v) := by
  refine List.nodup_cons.mpr ⟨?_, keysNodup_adelete nd k⟩
  intro hmem
  rcases List.mem_map.mp hmem with ⟨p, hp, hfst⟩
  exact absurd hfst (by simpa using List.of_mem_filter hp)

theorem keysNodup_filter {l : Store β} (nd : keysNodup l) (q : String × β → Bool) :
    keysNodup (l.filter q) :=
  ((List.filter_sublist l).map Prod.fst).nodup nd

/-! ### Key construction

Both tiers build their parameter string identically
(`Object.keys(params).sort().map(key => key + "=" + params[key]).join("&")`);
the server key builder prepends only the operation prefix, the client key
builder prepends its namespace and the operation prefix. -/

/-- The `k1=v1&k2=v2&...` parameter string with parameter names sorted
ascending.  Parameter mappings are association lists; in JS they are objects,
whose keys are unique, so `List.lookup` recovers exactly `params[key]`. -/
def paramString (params : Store String) : String :=
  String.intercalate "&"
    ((List.insertionSort strLeP (params.map Prod.fst)).map
      fun k => k ++ "=" ++ ((List.lookup k params).getD ""))

/-! ### Server-side cache (`lib/cache.js`, class `ApiCache`) -/

/-- A server cache entry: `{ data, expiry }`. -/
structure SEntry (α : Type) where
  data : α
  expiry : Nat
deriving DecidableEq, Repr

/-- The server in-process cache: `this.cache = new Map()`. -/
structure ApiCache (α : Type) where
  cache : Store (SEntry α)
deriving DecidableEq, Repr

namespace ApiCache

/-- `this.defaultTTL = 24 * 60 * 60 * 1000`. -/
def defaultTTL : Nat := 24 * 60 * 60 * 1000

/-- `generateKey(prefix, params)`: no namespace component — the returned key
is `prefix + ":" + sortedParams`. -/
def generateKey (pfx : String) (params : Store String) : String :=
  pfx ++ ":" ++ paramString params

/-- `get(key)`: absent key yields `null`; an entry with `Date.now() > expiry`
is deleted and yields `null`; otherwise the payload is returned. -/
def get (c : ApiCache α) (now : Nat) (key : String) : Option α × ApiCache α :=
  match List.lookup key c.cache with
  | none => (none, c)
  | some item =>
    if now > item.expiry then (none, ⟨adelete c.cache key⟩)
    else (some item.data, c)

/-- `set(key, data, ttl)`: stores `{ data, expiry: Date.now() + ttl }`. -/
def set (c : ApiCache α) (now : Nat) (key : String) (data : α) (ttl : Nat) :
    ApiCache α :=
  ⟨aset c.cache key ⟨data, now + ttl⟩⟩

/-- `clear(key = null)`: deletes one binding, or empties the whole map. -/
def clear (c : ApiCache α) (key : Option String) : ApiCache α :=
  match key with
  | some k => ⟨adelete c.cache k⟩
  | none => ⟨[]⟩

/-- `cleanup()`: deletes every entry with `now > expiry`. -/
def cleanup (c : ApiCache α) (now : Nat) : ApiCache α :=
  ⟨c.cache.filter fun p => !(decide (now > p.2.expiry))⟩

end ApiCache

/-! ### Client-side cache (frontend script, class `FrontendCache`) -/

/-- A client cache entry: `{ data, expiry, timestamp }`. -/
structure CEntry (α : Type) where
  data : α
  expiry : Nat
  timestamp : Nat
deriving DecidableEq, Repr

/-- The client cache state: the instance namespace, the in-memory `Map`
(`this.memoryCache`), and the ambient shared `localStorage` the instance
reads and writes. -/
structure FrontendCache (α : Type) where
  nspace : String
  memoryCache : Store (CEntry α)
  localStore : Store (CEntry α)
deriving DecidableEq, Repr

namespace FrontendCache

/-- The default TTL of `set`: `30 * 60 * 1000`. -/
def defaultTTL : Nat := 30 * 60 * 1000

/-- `key(prefix, params)`: `namespace + ":" + prefix + ":" + sortedParams`;
an absent `params` argument (`params || {}`) acts as the empty mapping. -/
def key (ns pfx : String) (params : Option (Store String)) : String :=
  ns ++ ":" ++ pfx ++ ":" ++ paramString (params.getD [])

/-- `isValid(item)`: `item && Date.now() < item.expiry` (the item exists at
every call site of the model). -/
def isValid (now : Nat) (item : CEntry α) : Bool := decide (now < item.expiry)

/-- The localStorage half of `get`: a valid persisted entry is restored into
the memory cache before its payload is returned; an expired persisted entry
is removed. -/
def getFromStorage (st : FrontendCache α) (now : Nat) (k : String) :
    Option α × FrontendCache α :=
  match List.lookup k st.localStore with
  | some item =>
    if isValid now item then
      (some item.data, { st with memoryCache := aset st.memoryCache k item })
    else (none, { st with localStore := adelete st.localStore k })
  | none => (none, st)

/-- `get(key)`: memory first (expired memory entries are deleted), then
localStorage via `getFromStorage`. -/
def get (st : FrontendCache α) (now : Nat) (k : String) :
    Option α × FrontendCache α :=
  match List.lookup k st.memoryCache with
  | some item =>
    if isValid now item then (some item.data, st)
    else getFromStorage { st with memoryCache := adelete st.memoryCache k } now k
  | none => getFromStorage st now k

/-- The `keysToRemove` list built by `cleanup()`: every namespace-prefixed
localStorage key whose entry satisfies `now >= expiry`. -/
def cleanupKeys (st : FrontendCache α) (now : Nat) : List String :=
  (st.localStore.filter fun p =>
    strStartsWith p.1 st.nspace && decide (now ≥ p.2.expiry)).map Prod.fst

/-- `cleanup()`: collects `keysToRemove` (see `cleanupKeys`), deleting those
keys from the memory cache during the scan and from localStorage
afterwards. -/
def cleanup (st : FrontendCache α) (now : Nat) : FrontendCache α :=
  { st with
      memoryCache := st.memoryCache.filter fun p => !((cleanupKeys st now).contains p.1)
      localStore := st.localStore.filter fun p => !((cleanupKeys st now).contains p.1) }

/-- `set(key, data, ttl)` with the persistence-failure schedule made
explicit: `fail1` (`fail2`) tells whether the first (retry) call to
`localStorage.setItem` throws.  The second component counts the `setItem`
attempts performed.  The memory write always happens first; on a first-write
failure the code runs `cleanup()` and retries once, and a retry failure is
swallowed. -/
def setWithPersistence (st : FrontendCache α) (now : Nat) (k : String)
    (data : α) (ttl : Nat) (fail1 fail2 : Bool) : FrontendCache α × Nat :=
  let item : CEntry α := ⟨data, now + ttl, now⟩
  let st1 := { st with memoryCache := aset st.memoryCache k item }
  if fail1 then
    let st2 := cleanup st1 now
    if fail2 then (st2, 2)
    else ({ st2 with localStore := aset st2.localStore k item }, 2)
  else ({ st1 with localStore := aset st1.localStore k item }, 1)

/-- `set(key, data, ttl)`: the state after the write (see
`setWithPersistence`). -/
def set (st : FrontendCache α) (now : Nat) (k : String) (data : α) (ttl : Nat)
    (fail1 fail2 : Bool) : FrontendCache α :=
  (setWithPersistence st now k data ttl fail1 fail2).1

/-- `clearLocalStorage()`: removes every localStorage key that starts with
the instance namespace. -/
def clearLocalStorage (st : FrontendCache α) : FrontendCache α :=
  { st with localStore := st.localStore.filter fun p => !(strStartsWith p.1 st.nspace) }

/-- `clear(key = null)`: one key from both layers, or the whole memory map
plus every namespace-prefixed persisted key. -/
def clear (st : FrontendCache α) (key : Option String) : FrontendCache α :=
  match key with
  | some k =>
    { st with
        memoryCache := adelete st.memoryCache k
        localStore := adelete st.localStore k }
  | none => clearLocalStorage { st with memoryCache := [] }

/-- The `loadFromLocalStorage()` scan: `for (let i = 0; i < localStorage.length;
i++)` over the live store.  Valid namespace-prefixed entries are copied into
the memory cache; expired ones are removed from localStorage in place, which
shifts the indices of the remaining entries under the advancing `i` exactly
as it does in JS.  The first argument is recursion fuel; since `i` grows by
one per iteration and the store never grows, the loop performs at most
`sto.length` iterations, so `init` passing `sto.length` runs the loop to
completion (`loadLoop_fuel_stable` below makes this exact). -/
def loadLoop (ns : String) (now : Nat) :
    Nat → Store (CEntry α) → Store (CEntry α) → Nat →
      Store (CEntry α) × Store (CEntry α)
  | 0, mem, sto, _ => (mem, sto)
  | fuel + 1, mem, sto, i =>
    if h : i < sto.length then
      let p := sto.get ⟨i, h⟩
      if strStartsWith p.1 ns then
        if now < p.2.expiry then loadLoop ns now fuel (aset mem p.1 p.2) sto (i + 1)
        else loadLoop ns now fuel mem (adelete sto p.1) (i + 1)
      else loadLoop ns now fuel mem sto (i + 1)
    else (mem, sto)

/-- Any fuel of at least `sto.length - i` runs the load loop to completion:
the result is the loop's fixpoint, independent of the exact fuel. -/
theorem loadLoop_fuel_stable (ns : String) (now : Nat) :
    ∀ (fuel : Nat) (mem sto : Store (CEntry α)) (i : Nat),
      sto.length - i ≤ fuel →
      loadLoop ns now (fuel + 1) mem sto i = loadLoop ns now fuel mem sto i := by
  intro fuel
  induction fuel with
  | zero =>
    intro mem sto i hf
    simp only [loadLoop]
    rw [dif_neg (by omega)]
  | succ fuel ih =>
    intro mem sto i hf
    by_cases h : i < sto.length
    · rw [show loadLoop ns now (fuel + 1 + 1) mem sto i =
          (if h : i < sto.length then
            (if strStartsWith (sto.get ⟨i, h⟩).1 ns then
              (if now < (sto.get ⟨i, h⟩).2.expiry then
                loadLoop ns now (fuel + 1) (aset mem (sto.get ⟨i, h⟩).1 (sto.get ⟨i, h⟩).2) sto (i + 1)
              else loadLoop ns now (fuel + 1) mem (adelete sto (sto.get ⟨i, h⟩).1) (i + 1))
            else loadLoop ns now (fuel + 1) mem sto (i + 1))
          else (mem, sto)) from rfl]
      rw [show loadLoop ns now (fuel + 1) mem sto i =
          (if h : i < sto.length then
            (if strStartsWith (sto.get ⟨i, h⟩).1 ns then
              (if now < (sto.get ⟨i, h⟩).2.expiry then
                loadLoop ns now fuel (aset mem (sto.get ⟨i, h⟩).1 (sto.get ⟨i, h⟩).2) sto (i + 1)
              else loadLoop ns now fuel mem (adelete sto (sto.get ⟨i, h⟩).1) (i + 1))
            else loadLoop ns now fuel mem sto (i + 1))
          else (mem, sto)) from rfl]
      rw [dif_pos h, dif_pos h]
      have hdel : (adelete sto (sto.get ⟨i, h⟩).1).length - (i + 1) ≤ fuel := by
        have := List.length_filter_le (fun p' => !(p'.1 == (sto.get ⟨i, h⟩).1)) sto
        simp only [adelete]
        omega
      by_cases hpre : strStartsWith (sto.get ⟨i, h⟩).1 ns
      · rw [if_pos hpre, if_pos hpre]
        by_cases hval : now < (sto.get ⟨i, h⟩).2.expiry
        · rw [if_pos hval, if_pos hval, ih _ _ _ (by omega)]
        · rw [if_neg hval, if_neg hval, ih _ _ _ hdel]
      · rw [if_neg hpre, if_neg hpre, ih _ _ _ (by omega)]
    · rw [show loadLoop ns now (fuel + 1 + 1) mem sto i =
          (if h : i < sto.length then
            (if strStartsWith (sto.get ⟨i, h⟩).1 ns then
              (if now < (sto.get ⟨i, h⟩).2.expiry then
                loadLoop ns now (fuel + 1) (aset mem (sto.get ⟨i, h⟩).1 (sto.get ⟨i, h⟩).2) sto (i + 1)
              else loadLoop ns now (fuel + 1) mem (adelete sto (sto.get ⟨i, h⟩).1) (i + 1))
            else loadLoop ns now (fuel + 1) mem sto (i + 1))
          else (mem, sto)) from rfl]
      rw [show loadLoop ns now (fuel + 1) mem sto i =
          (if h : i < sto.length then
            (if strStartsWith (sto.get ⟨i, h⟩).1 ns then
              (if now < (sto.get ⟨i, h⟩).2.expiry then
                loadLoop ns now fuel (aset mem (sto.get ⟨i, h⟩).1 (sto.get ⟨i, h⟩).2) sto (i + 1)
              else loadLoop ns now fuel mem (adelete sto (sto.get ⟨i, h⟩).1) (i + 1))
            else loadLoop ns now fuel mem sto (i + 1))
          else (mem, sto)) from rfl]
      rw [dif_neg h, dif_neg h]

/-- The constructor: `this.memoryCache = new Map(); this.loadFromLocalStorage()`
against the given ambient localStorage contents. -/
def init (ns : String) (now : Nat) (sto : Store (CEntry α)) : FrontendCache α :=
  let r := loadLoop ns now sto.length [] sto 0
  ⟨ns, r.1, r.2⟩

end FrontendCache

/-! ### Fetch-with-cache call sites -/

/-- The observable outcome of one fetch-with-cache request: the payload
handed to the caller (`none` models the error / mock-data response), the
cache state afterwards, and whether the wrapped external operation was
invoked. -/
structure FetchOutcome (σ : Type) (α : Type) where
  result : Option α
  state : σ
  calledExternal : Bool
deriving DecidableEq, Repr

/-- The cache behaviour of the serverless `handler` of `api/predict.js`:
key from `generateKey('flightaware', { airport, date })`; a hit returns the
cached analysis without touching FlightAware; a miss invokes the upstream
fetch, caching the analysis for 30 minutes on success and returning the
uncached mock/warning response on failure. -/
def handler (c : ApiCache α) (now : Nat) (airport date : String)
    (upstream : Except String α) : FetchOutcome (ApiCache α) α :=
  let cacheKey := ApiCache.generateKey "flightaware" [("airport", airport), ("date", date)]
  match ApiCache.get c now cacheKey with
  | (some d, c') => ⟨some d, c', false⟩
  | (none, c') =>
    match upstream with
    | .error _ => ⟨none, c', true⟩
    | .ok a => ⟨some a, ApiCache.set c' now cacheKey a (30 * 60 * 1000), true⟩

/-- The cache behaviour of the frontend `fetchAndDisplayPrediction`:
key from `frontendCache.key('prediction', { airport, date })`; a hit renders
the cached data without calling `/api/predict`; a miss calls it, caching the
response for 30 minutes when `response.ok` holds and caching nothing when the
fetch throws or reports a non-ok status.  Persistence succeeds on this path;
failure schedules are exercised separately through `set`. -/
def fetchAndDisplayPrediction (st : FrontendCache α) (now : Nat)
    (airport date : String) (response : Except String α) :
    FetchOutcome (FrontendCache α) α :=
  let cacheKey := FrontendCache.key st.nspace "prediction"
    (some [("airport", airport), ("date", date)])
  match FrontendCache.get st now cacheKey with
  | (some d, st') => ⟨some d, st', false⟩
  | (none, st') =>
    match response with
    | .error _ => ⟨none, st', true⟩
    | .ok d =>
      ⟨some d, FrontendCache.set st' now cacheKey d (30 * 60 * 1000) false false, true⟩

/-- Modelled from the spec (§4.1), for comparison with the implementations:
the key format the specification prescribes for both tiers,
`namespace:prefix:k1=v1&k2=v2&...` with keys sorted ascending; absent
`params` yields `namespace:prefix:`. -/
def specBuildKey (ns pfx : String) (params : Option (Store String)) : String :=
  ns ++ ":" ++ pfx ++ ":" ++ paramString (params.getD [])

/-! ### Further store lemmas -/

theorem mem_adelete {l : Store β} {p : String × β} {k : String} :
    p ∈ adelete l k ↔ p ∈ l ∧ p.1 ≠ k := by
  simp [adelete, List.mem_filter]

theorem mem_aset {l : Store β} {p : String × β} {k : String} {v : β} :
    p ∈ aset l k v ↔ p = (k, v) ∨ (p ∈ l ∧ p.1 ≠ k) := by
  simp [aset, mem_adelete]

theorem lookup_none_not_mem {l : Store β} {k : String} {v : β}
    (h : List.lookup k l = none) : (k, v) ∉ l := by
  intro hmem
  induction l with
  | nil => simp at hmem
  | cons p t ih =>
    rw [lookup_cons] at h
    rcases List.mem_cons.mp hmem with he | hm
    · rw [← he] at h
      simp at h
    · by_cases hk : k = p.1
      · rw [if_pos hk] at h; simp at h
      · rw [if_neg hk] at h; exact ih h hm

/-- The transient-mirror invariant of the client cache: every entry of the
in-memory map is also present, with the same payload and expiry, in
localStorage. -/
def CInv (st : FrontendCache α) : Prop :=
  ∀ p ∈ st.memoryCache, List.lookup p.1 st.localStore = some p.2

instance (st : FrontendCache α) [DecidableEq α] : Decidable (CInv st) :=
  List.decidableBAll _ _

theorem CInv.lookup {st : FrontendCache α} (h : CInv st) {k : String}
    {i : CEntry α} (hl : List.lookup k st.memoryCache = some i) :
    List.lookup k st.localStore = some i :=
  h (k, i) (lookup_eq_some_mem hl)

/-! ### Key-builder lemmas -/

/-- Key lookup in an association list is invariant under permutation when the
keys are duplicate-free. -/
theorem lookup_perm {l₁ l₂ : Store β} (h : l₁.Perm l₂) (nd : keysNodup l₁)
    (k : String) : List.lookup k l₁ = List.lookup k l₂ := by
  have nd₂ : keysNodup l₂ := (h.map Prod.fst).nodup nd
  cases hl : List.lookup k l₁ with
  | some v => exact (mem_lookup_of_nodup nd₂ (h.mem_iff.mp (lookup_eq_some_mem hl))).symm
  | none =>
    cases hr : List.lookup k l₂ with
    | none => rfl
    | some v =>
      have := mem_lookup_of_nodup nd (h.mem_iff.mpr (lookup_eq_some_mem hr))
      rw [hl] at this
      exact this

/-- Sorting by the JS string order is a function of the multiset of names. -/
theorem insertionSort_perm_eq {l₁ l₂ : List String} (h : l₁.Perm l₂) :
    List.insertionSort strLeP l₁ = List.insertionSort strLeP l₂ :=
  List.eq_of_perm_of_sorted
    ((List.perm_insertionSort _ _).trans (h.trans (List.perm_insertionSort _ _).symm))
    (List.sorted_insertionSort _ _) (List.sorted_insertionSort _ _)

/-- The sorted parameter string is invariant under re-ordering of a
duplicate-free parameter mapping. -/
theorem paramString_perm {P₁ P₂ : Store String} (nd : keysNodup P₁)
    (h : P₁.Perm P₂) : paramString P₁ = paramString P₂ := by
  unfold paramString
  rw [insertionSort_perm_eq (h.map Prod.fst)]
  have hf : (fun k => k ++ "=" ++ ((List.lookup k P₁).getD "")) =
      fun k => k ++ "=" ++ ((List.lookup k P₂).getD "") :=
    funext fun k => by rw [lookup_perm h nd k]
  rw [hf]

/-! ### Claim theorems -/

/-- C2, counterexample.  The claim requires the key builder of each tier to
return `namespace:prefix:` followed by the parameter pairs.  The server tier
(`ApiCache.generateKey`) has no namespace component at all: on the prefix
`"flightaware"` with an empty parameter mapping it returns `"flightaware:"`,
which no choice of namespace can write as `namespace ++ ":flightaware:" ++
pairs` — any such string is at least one character longer. -/
theorem claim2_counterexample :
    ¬ ∃ ns : String,
      ApiCache.generateKey "flightaware" [] = specBuildKey ns "flightaware" (some []) := by
  rintro ⟨ns, h⟩
  have h12 : ApiCache.generateKey "flightaware" [] = "flightaware:" := by decide
  rw [h12] at h
  have hlen := congrArg String.length h
  simp only [specBuildKey, Option.getD_some, String.length_append] at hlen
  have h0 : ("flightaware:").length = 12 := by decide
  have h1 : (":").length = 1 := by decide
  have h2 : ("flightaware").length = 11 := by decide
  have h3 : (paramString []).length = 0 := by decide
  omega

/-- C2, amended.  The client key builder returns exactly the
`namespace:prefix:` form the specification prescribes (absent parameters
included); the server key builder returns `prefix:` followed by the same
sorted parameter string, with no namespace component, so the client key is
the server key of the same prefix and parameters with `namespace ++ ":"`
prepended. -/
theorem claim2_amended_key_format (ns pfx : String) (params : Option (Store String))
    (ps : Store String) :
    FrontendCache.key ns pfx params = specBuildKey ns pfx params ∧
    ApiCache.generateKey pfx ps = pfx ++ ":" ++ paramString ps ∧
    FrontendCache.key ns pfx (some ps) = ns ++ ":" ++ ApiCache.generateKey pfx ps := by
  refine ⟨rfl, rfl, ?_⟩
  simp [FrontendCache.key, ApiCache.generateKey, String.append_assoc]

/-- C8.  Key-building is deterministic in both tiers: two parameter mappings
that are equal as sets of pairs (same pairs, any insertion order, names
duplicate-free) produce identical keys, because both builders sort the
parameter names before concatenation. -/
theorem claim8_determinism (ns pfx : String) (P₁ P₂ : Store String)
    (nd : keysNodup P₁) (hperm : P₁.Perm P₂) :
    FrontendCache.key ns pfx (some P₁) = FrontendCache.key ns pfx (some P₂) ∧
    ApiCache.generateKey pfx P₁ = ApiCache.generateKey pfx P₂ := by
  have hp := paramString_perm nd hperm
  exact ⟨by simp [FrontendCache.key, hp], by simp [ApiCache.generateKey, hp]⟩

/-- C8, witness: the spec's own concrete scenario, `{date, airport}` versus
`{airport, date}`. -/
theorem claim8_determinism_witness :
    keysNodup [("date", "2025-12-31"), ("airport", "LIS")] ∧
    ([("date", "2025-12-31"), ("airport", "LIS")] : Store String).Perm
      [("airport", "LIS"), ("date", "2025-12-31")] ∧
    (FrontendCache.key "airportQueue" "prediction"
        (some [("date", "2025-12-31"), ("airport", "LIS")]) =
      FrontendCache.key "airportQueue" "prediction"
        (some [("airport", "LIS"), ("date", "2025-12-31")]) ∧
    ApiCache.generateKey "prediction" [("date", "2025-12-31"), ("airport", "LIS")] =
      ApiCache.generateKey "prediction" [("airport", "LIS"), ("date", "2025-12-31")]) :=
  ⟨by decide, by decide,
    claim8_determinism "airportQueue" "prediction" _ _ (by decide) (by decide)⟩

/-- C3, counterexample.  The claim requires `get` to return absent at every
query time `>= t0 + T` in both tiers.  The server tier's validity test is
`Date.now() > item.expiry`, so at the exact boundary `t = t0 + T` (here
`set` at `t0 = 0` with `T = 10`, `get` at `t = 10`) it still returns the
payload. -/
theorem claim3_counterexample :
    (ApiCache.get (ApiCache.set (⟨[]⟩ : ApiCache Nat) 0 "k" 7 10) 10 "k").1 = some 7 := by
  decide

/-- C3, amended.  For an entry set at `t0` with ttl `T` and queried at
`t ≥ t0` with no intervening operation on the key: the client tier behaves
as claimed (payload exactly on `[t0, t0+T)`, absent from `t0+T` on,
validity `now < expiry`), while the server tier returns the payload on the
closed interval `[t0, t0+T]` and absent only strictly after `t0+T`
(validity `now ≤ expiry`). -/
theorem claim3_amended_expiry (c : ApiCache α) (st : FrontendCache α)
    (t₀ T t : Nat) (k : String) (v : α) (ht : t₀ ≤ t) :
    ((t ≤ t₀ + T → (ApiCache.get (ApiCache.set c t₀ k v T) t k).1 = some v) ∧
      (t₀ + T < t → (ApiCache.get (ApiCache.set c t₀ k v T) t k).1 = none)) ∧
    ((t < t₀ + T →
        (FrontendCache.get (FrontendCache.set st t₀ k v T false false) t k).1 = some v) ∧
      (t₀ + T ≤ t →
        (FrontendCache.get (FrontendCache.set st t₀ k v T false false) t k).1 = none)) := by
  have hslk : List.lookup k (ApiCache.set c t₀ k v T).cache = some ⟨v, t₀ + T⟩ :=
    lookup_aset_self _ _ _
  have hmlk : List.lookup k (FrontendCache.set st t₀ k v T false false).memoryCache =
      some ⟨v, t₀ + T, t₀⟩ := lookup_aset_self _ _ _
  have hplk : List.lookup k (FrontendCache.set st t₀ k v T false false).localStore =
      some ⟨v, t₀ + T, t₀⟩ := lookup_aset_self _ _ _
  refine ⟨⟨?_, ?_⟩, ?_, ?_⟩
  · intro hle
    simp only [ApiCache.get, hslk]
    rw [if_neg (by omega)]
  · intro hlt
    simp only [ApiCache.get, hslk]
    rw [if_pos (by omega)]
  · intro hlt
    simp only [FrontendCache.get, hmlk, FrontendCache.isValid]
    rw [if_pos (by simpa using hlt)]
  · intro hle
    simp only [FrontendCache.get, hmlk, FrontendCache.isValid]
    rw [if_neg (by simpa using Nat.not_lt.mpr hle)]
    have hplk' : List.lookup k
        (adelete (FrontendCache.set st t₀ k v T false false).memoryCache k) = none :=
      lookup_adelete_self _ _
    simp only [FrontendCache.getFromStorage, hplk, FrontendCache.isValid]
    rw [if_neg (by simpa using Nat.not_lt.mpr hle)]

/-- C3, witness: the spec's concrete scenario (ttl 1 800 000 at `t0 = 0`,
reads at 1 799 999 and 1 800 001) on both tiers, instantiated with payload
`42`. -/
theorem claim3_amended_expiry_witness :
    (0 ≤ 1799999 ∧
      ((1799999 ≤ 0 + 1800000 →
          (ApiCache.get (ApiCache.set (⟨[]⟩ : ApiCache Nat) 0 "ns:pred:" 42 1800000)
            1799999 "ns:pred:").1 = some 42) ∧
        (0 + 1800000 < 1799999 →
          (ApiCache.get (ApiCache.set (⟨[]⟩ : ApiCache Nat) 0 "ns:pred:" 42 1800000)
            1799999 "ns:pred:").1 = none)) ∧
      ((1799999 < 0 + 1800000 →
          (FrontendCache.get
            (FrontendCache.set (⟨"ns", [], []⟩ : FrontendCache Nat) 0 "ns:pred:" 42 1800000
              false false) 1799999 "ns:pred:").1 = some 42) ∧
        (0 + 1800000 ≤ 1799999 →
          (FrontendCache.get
            (FrontendCache.set (⟨"ns", [], []⟩ : FrontendCache Nat) 0 "ns:pred:" 42 1800000
              false false) 1799999 "ns:pred:").1 = none))) ∧
    (0 ≤ 1800001 ∧
      ((1800001 ≤ 0 + 1800000 →
          (ApiCache.get (ApiCache.set (⟨[]⟩ : ApiCache Nat) 0 "ns:pred:" 42 1800000)
            1800001 "ns:pred:").1 = some 42) ∧
        (0 + 1800000 < 1800001 →
          (ApiCache.get (ApiCache.set (⟨[]⟩ : ApiCache Nat) 0 "ns:pred:" 42 1800000)
            1800001 "ns:pred:").1 = none)) ∧
      ((1800001 < 0 + 1800000 →
          (FrontendCache.get
            (FrontendCache.set (⟨"ns", [], []⟩ : FrontendCache Nat) 0 "ns:pred:" 42 1800000
              false false) 1800001 "ns:pred:").1 = some 42) ∧
        (0 + 1800000 ≤ 1800001 →
          (FrontendCache.get
            (FrontendCache.set (⟨"ns", [], []⟩ : FrontendCache Nat) 0 "ns:pred:" 42 1800000
              false false) 1800001 "ns:pred:").1 = none))) :=
  ⟨⟨by decide, claim3_amended_expiry _ _ 0 1800000 1799999 "ns:pred:" 42 (by decide)⟩,
    ⟨by decide, claim3_amended_expiry _ _ 0 1800000 1800001 "ns:pred:" 42 (by decide)⟩⟩

/-- Membership in the `keysToRemove` list of the client sweep. -/
theorem cleanupKeys_contains (st : FrontendCache α) (now : Nat) (k : String) :
    ((FrontendCache.cleanupKeys st now).contains k = true) ↔
      ∃ j, (k, j) ∈ st.localStore ∧ strStartsWith k st.nspace = true ∧ j.expiry ≤ now := by
  constructor
  · intro h
    rcases List.mem_map.mp (List.mem_of_elem_eq_true h) with ⟨p, hp, hfst⟩
    rcases List.mem_filter.mp hp with ⟨hmem, hcond⟩
    simp only [Bool.and_eq_true, decide_eq_true_eq, ge_iff_le] at hcond
    subst hfst
    exact ⟨p.2, by simpa using hmem, hcond.1, hcond.2⟩
  · rintro ⟨j, hmem, hpre, hexp⟩
    apply List.elem_eq_true_of_mem
    exact List.mem_map.mpr ⟨(k, j), List.mem_filter.mpr ⟨hmem, by simp [hpre, hexp]⟩, rfl⟩

/-- C5, counterexample.  The claim requires every entry with
`expiry <= now` to be removed by the sweep.  The server sweep tests
`now > value.expiry`, so an entry whose expiry equals the sweep time
(here expiry 5, sweep at `now = 5`) survives. -/
theorem claim5_counterexample :
    ("k", (⟨7, 5⟩ : SEntry Nat)) ∈
      (ApiCache.cleanup (⟨[("k", ⟨7, 5⟩)]⟩ : ApiCache Nat) 5).cache := by
  decide

/-- C5, amended.  After a sweep at time `now`: the server tier retains
exactly the entries with `expiry ≥ now` (an entry with `expiry = now`
survives; only `expiry < now` is removed), and the client tier — whose
persisted keys all carry its namespace and whose memory map mirrors
localStorage — retains in both layers exactly the entries with
`expiry > now`, as the claim states. -/
theorem claim5_amended_sweep (c : ApiCache α) (st : FrontendCache α) (now : Nat)
    (k : String) (i : SEntry α) (j : CEntry α)
    (nds : keysNodup st.localStore)
    (hpref : ∀ p ∈ st.localStore, strStartsWith p.1 st.nspace = true)
    (hinv : CInv st) :
    ((k, i) ∈ (ApiCache.cleanup c now).cache ↔ (k, i) ∈ c.cache ∧ now ≤ i.expiry) ∧
    ((k, j) ∈ (FrontendCache.cleanup st now).localStore ↔
      (k, j) ∈ st.localStore ∧ now < j.expiry) ∧
    ((k, j) ∈ (FrontendCache.cleanup st now).memoryCache ↔
      (k, j) ∈ st.memoryCache ∧ now < j.expiry) := by
  have hcontains : ∀ j2 : CEntry α, (k, j2) ∈ st.localStore →
      (((FrontendCache.cleanupKeys st now).contains k = true) ↔ j2.expiry ≤ now) := by
    intro j2 hmem
    rw [cleanupKeys_contains]
    constructor
    · rintro ⟨j3, hmem3, _, hexp3⟩
      have h2 := mem_lookup_of_nodup nds hmem
      have h3 := mem_lookup_of_nodup nds hmem3
      rw [h2] at h3
      cases h3
      exact hexp3
    · intro hexp
      exact ⟨j2, hmem, hpref _ hmem, hexp⟩
  refine ⟨?_, ?_, ?_⟩
  · simp only [ApiCache.cleanup, List.mem_filter, Bool.not_eq_eq_eq_not, Bool.not_true,
      decide_eq_false_iff_not, gt_iff_lt, Nat.not_lt]
  · simp only [FrontendCache.cleanup, List.mem_filter, Bool.not_eq_eq_eq_not, Bool.not_true]
    constructor
    · rintro ⟨hmem, hnc⟩
      refine ⟨hmem, ?_⟩
      have := (hcontains j hmem).not.mp (by rw [hnc]; exact Bool.false_ne_true)
      omega
    · rintro ⟨hmem, hval⟩
      refine ⟨hmem, ?_⟩
      have h2 := (hcontains j hmem).not.mpr (by omega)
      simp only [Bool.not_eq_true] at h2
      exact h2
  · simp only [FrontendCache.cleanup, List.mem_filter, Bool.not_eq_eq_eq_not, Bool.not_true]
    constructor
    · rintro ⟨hmem, hnc⟩
      refine ⟨hmem, ?_⟩
      have hsto : (k, j) ∈ st.localStore :=
        lookup_eq_some_mem (hinv (k, j) hmem)
      have := (hcontains j hsto).not.mp (by rw [hnc]; exact Bool.false_ne_true)
      omega
    · rintro ⟨hmem, hval⟩
      refine ⟨hmem, ?_⟩
      have hsto : (k, j) ∈ st.localStore :=
        lookup_eq_some_mem (hinv (k, j) hmem)
      have h2 := (hcontains j hsto).not.mpr (by omega)
      simp only [Bool.not_eq_true] at h2
      exact h2

/-- C5, witness: a client state holding one live and one expired entry under
its namespace, swept at `now = 4`, and a server cache with a live entry swept
at the same time. -/
theorem claim5_amended_sweep_witness :
    keysNodup ([("aq:a", ⟨1, 5, 0⟩), ("aq:b", ⟨2, 3, 0⟩)] : Store (CEntry Nat)) ∧
    (∀ p ∈ ([("aq:a", ⟨1, 5, 0⟩), ("aq:b", ⟨2, 3, 0⟩)] : Store (CEntry Nat)),
      strStartsWith p.1 "aq" = true) ∧
    CInv (⟨"aq", [("aq:b", ⟨2, 3, 0⟩)],
      [("aq:a", ⟨1, 5, 0⟩), ("aq:b", ⟨2, 3, 0⟩)]⟩ : FrontendCache Nat) ∧
    ((("aq:b", (⟨9, 4⟩ : SEntry Nat)) ∈
        (ApiCache.cleanup (⟨[("aq:b", ⟨9, 4⟩)]⟩ : ApiCache Nat) 4).cache ↔
      ("aq:b", (⟨9, 4⟩ : SEntry Nat)) ∈ ([("aq:b", ⟨9, 4⟩)] : Store (SEntry Nat)) ∧
        4 ≤ (4 : Nat)) ∧
    (("aq:b", (⟨2, 3, 0⟩ : CEntry Nat)) ∈
        (FrontendCache.cleanup (⟨"aq", [("aq:b", ⟨2, 3, 0⟩)],
          [("aq:a", ⟨1, 5, 0⟩), ("aq:b", ⟨2, 3, 0⟩)]⟩ : FrontendCache Nat) 4).localStore ↔
      ("aq:b", (⟨2, 3, 0⟩ : CEntry Nat)) ∈
          ([("aq:a", ⟨1, 5, 0⟩), ("aq:b", ⟨2, 3, 0⟩)] : Store (CEntry Nat)) ∧
        4 < (3 : Nat)) ∧
    (("aq:b", (⟨2, 3, 0⟩ : CEntry Nat)) ∈
        (FrontendCache.cleanup (⟨"aq", [("aq:b", ⟨2, 3, 0⟩)],
          [("aq:a", ⟨1, 5, 0⟩), ("aq:b", ⟨2, 3, 0⟩)]⟩ : FrontendCache Nat) 4).memoryCache ↔
      ("aq:b", (⟨2, 3, 0⟩ : CEntry Nat)) ∈ ([("aq:b", ⟨2, 3, 0⟩)] : Store (CEntry Nat)) ∧
        4 < (3 : Nat))) :=
  ⟨by decide, by decide, by decide,
    claim5_amended_sweep (⟨[("aq:b", ⟨9, 4⟩)]⟩ : ApiCache Nat)
      (⟨"aq", [("aq:b", ⟨2, 3, 0⟩)], [("aq:a", ⟨1, 5, 0⟩), ("aq:b", ⟨2, 3, 0⟩)]⟩ :
        FrontendCache Nat) 4 "aq:b" ⟨9, 4⟩ ⟨2, 3, 0⟩
      (by decide) (by decide) (by decide)⟩

/-- C7, counterexample.  The claim requires `clear()` to leave entries of
unrelated namespaces in the shared persistent storage untouched.  The code
matches keys with `key.startsWith(this.namespace)`, so clearing the
`"airportQueue"` cache also deletes the entry of the unrelated namespace
`"airportQueueV2"`, whose name merely extends the string `"airportQueue"`. -/
theorem claim7_counterexample :
    (FrontendCache.clear
      (⟨"airportQueue", [], [("airportQueueV2:k", ⟨0, 10, 0⟩)]⟩ : FrontendCache Nat)
      none).localStore = [] := by
  decide

/-- C7, amended.  `clear(k)` removes exactly the entry for `k` (other keys
unchanged, no error when absent) in both tiers; `clear()` empties the server
store and the client memory map, and removes from the shared persistent
storage exactly the keys that start with the cache's namespace string — so a
namespace that extends the cache's namespace as a string is also cleared,
while namespaces that are not string-extensions are untouched. -/
theorem claim7_amended_clear (c : ApiCache α) (st : FrontendCache α)
    (k k₂ : String) (i : CEntry α) (hne : k₂ ≠ k) :
    List.lookup k (ApiCache.clear c (some k)).cache = none ∧
    List.lookup k₂ (ApiCache.clear c (some k)).cache = List.lookup k₂ c.cache ∧
    (ApiCache.clear c none).cache = [] ∧
    List.lookup k (FrontendCache.clear st (some k)).memoryCache = none ∧
    List.lookup k (FrontendCache.clear st (some k)).localStore = none ∧
    List.lookup k₂ (FrontendCache.clear st (some k)).memoryCache =
      List.lookup k₂ st.memoryCache ∧
    List.lookup k₂ (FrontendCache.clear st (some k)).localStore =
      List.lookup k₂ st.localStore ∧
    (FrontendCache.clear st none).memoryCache = [] ∧
    ((k₂, i) ∈ (FrontendCache.clear st none).localStore ↔
      (k₂, i) ∈ st.localStore ∧ strStartsWith k₂ st.nspace = false) := by
  refine ⟨lookup_adelete_self _ _, lookup_adelete_ne _ hne, rfl,
    lookup_adelete_self _ _, lookup_adelete_self _ _,
    lookup_adelete_ne _ hne, lookup_adelete_ne _ hne, rfl, ?_⟩
  simp [FrontendCache.clear, FrontendCache.clearLocalStorage, List.mem_filter]

/-- C7, witness: clearing the key `"aq:a"` leaves `"aq:b"` in place, and a
full `clear()` of the `"aq"` cache examined at the foreign key `"other:x"`,
which survives. -/
theorem claim7_amended_clear_witness :
    ("other:x" ≠ "aq:a") ∧
    (List.lookup "aq:a"
        (ApiCache.clear (⟨[("aq:a", ⟨1, 5⟩), ("aq:b", ⟨2, 9⟩)]⟩ : ApiCache Nat)
          (some "aq:a")).cache = none ∧
      List.lookup "other:x"
          (ApiCache.clear (⟨[("aq:a", ⟨1, 5⟩), ("aq:b", ⟨2, 9⟩)]⟩ : ApiCache Nat)
            (some "aq:a")).cache =
        List.lookup "other:x" ([("aq:a", ⟨1, 5⟩), ("aq:b", ⟨2, 9⟩)] : Store (SEntry Nat)) ∧
      (ApiCache.clear (⟨[("aq:a", ⟨1, 5⟩), ("aq:b", ⟨2, 9⟩)]⟩ : ApiCache Nat) none).cache = [] ∧
      List.lookup "aq:a"
        (FrontendCache.clear
          (⟨"aq", [("aq:a", ⟨1, 5, 0⟩)], [("aq:a", ⟨1, 5, 0⟩), ("other:x", ⟨2, 9, 0⟩)]⟩ :
            FrontendCache Nat) (some "aq:a")).memoryCache = none ∧
      List.lookup "aq:a"
        (FrontendCache.clear
          (⟨"aq", [("aq:a", ⟨1, 5, 0⟩)], [("aq:a", ⟨1, 5, 0⟩), ("other:x", ⟨2, 9, 0⟩)]⟩ :
            FrontendCache Nat) (some "aq:a")).localStore = none ∧
      List.lookup "other:x"
          (FrontendCache.clear
            (⟨"aq", [("aq:a", ⟨1, 5, 0⟩)], [("aq:a", ⟨1, 5, 0⟩), ("other:x", ⟨2, 9, 0⟩)]⟩ :
              FrontendCache Nat) (some "aq:a")).memoryCache =
        List.lookup "other:x" ([("aq:a", ⟨1, 5, 0⟩)] : Store (CEntry Nat)) ∧
      List.lookup "other:x"
          (FrontendCache.clear
            (⟨"aq", [("aq:a", ⟨1, 5, 0⟩)], [("aq:a", ⟨1, 5, 0⟩), ("other:x", ⟨2, 9, 0⟩)]⟩ :
              FrontendCache Nat) (some "aq:a")).localStore =
        List.lookup "other:x"
          ([("aq:a", ⟨1, 5, 0⟩), ("other:x", ⟨2, 9, 0⟩)] : Store (CEntry Nat)) ∧
      (FrontendCache.clear
        (⟨"aq", [("aq:a", ⟨1, 5, 0⟩)], [("aq:a", ⟨1, 5, 0⟩), ("other:x", ⟨2, 9, 0⟩)]⟩ :
          FrontendCache Nat) none).memoryCache = [] ∧
      (("other:x", (⟨2, 9, 0⟩ : CEntry Nat)) ∈
          (FrontendCache.clear
            (⟨"aq", [("aq:a", ⟨1, 5, 0⟩)], [("aq:a", ⟨1, 5, 0⟩), ("other:x", ⟨2, 9, 0⟩)]⟩ :
              FrontendCache Nat) none).localStore ↔
        ("other:x", (⟨2, 9, 0⟩ : CEntry Nat)) ∈
            ([("aq:a", ⟨1, 5, 0⟩), ("other:x", ⟨2, 9, 0⟩)] : Store (CEntry Nat)) ∧
          strStartsWith "other:x" "aq" = false)) :=
  ⟨by decide,
    claim7_amended_clear (⟨[("aq:a", ⟨1, 5⟩), ("aq:b", ⟨2, 9⟩)]⟩ : ApiCache Nat)
      (⟨"aq", [("aq:a", ⟨1, 5, 0⟩)], [("aq:a", ⟨1, 5, 0⟩), ("other:x", ⟨2, 9, 0⟩)]⟩ :
        FrontendCache Nat) "aq:a" "other:x" ⟨2, 9, 0⟩ (by decide)⟩

/-! ### Lemmas about `get` misses, shared by the fetch-with-cache claims -/

theorem server_get_eq_of_lookup_none {c : ApiCache α} {k : String} (now : Nat)
    (h : List.lookup k c.cache = none) : ApiCache.get c now k = (none, c) := by
  simp only [ApiCache.get, h]

theorem server_get_lookup_none_of_miss {c : ApiCache α} {now : Nat} {k : String}
    (h : (ApiCache.get c now k).1 = none) :
    List.lookup k (ApiCache.get c now k).2.cache = none := by
  cases hlk : List.lookup k c.cache with
  | none => simp only [ApiCache.get, hlk]
  | some item =>
    by_cases hexp : now > item.expiry
    · simp only [ApiCache.get, hlk, if_pos hexp]
      exact lookup_adelete_self _ _
    · simp only [ApiCache.get, hlk, if_neg hexp] at h
      simp at h

theorem client_get_eq_of_lookup_none {st : FrontendCache α} {k : String}
    (now : Nat) (hm : List.lookup k st.memoryCache = none)
    (hs : List.lookup k st.localStore = none) :
    FrontendCache.get st now k = (none, st) := by
  simp only [FrontendCache.get, hm, FrontendCache.getFromStorage, hs]

theorem client_get_lookup_none_of_miss {st : FrontendCache α} {now : Nat}
    {k : String} (h : (FrontendCache.get st now k).1 = none) :
    List.lookup k (FrontendCache.get st now k).2.memoryCache = none ∧
    List.lookup k (FrontendCache.get st now k).2.localStore = none := by
  cases hm : List.lookup k st.memoryCache with
  | some item =>
    cases hv : FrontendCache.isValid now item with
    | true =>
      exfalso
      simp only [FrontendCache.get, hm, hv, if_true] at h
      exact Option.some_ne_none _ h
    | false =>
      cases hs : List.lookup k st.localStore with
      | some item2 =>
        cases hv2 : FrontendCache.isValid now item2 with
        | true =>
          exfalso
          simp only [FrontendCache.get, hm, hv, Bool.false_eq_true, if_false,
            FrontendCache.getFromStorage, hs, hv2, if_true] at h
          exact Option.some_ne_none _ h
        | false =>
          simp only [FrontendCache.get, hm, hv, Bool.false_eq_true, if_false,
            FrontendCache.getFromStorage, hs, hv2]
          exact ⟨lookup_adelete_self _ _, lookup_adelete_self _ _⟩
      | none =>
        simp only [FrontendCache.get, hm, hv, Bool.false_eq_true, if_false,
          FrontendCache.getFromStorage, hs]
        exact ⟨lookup_adelete_self _ _, trivial⟩
  | none =>
    cases hs : List.lookup k st.localStore with
    | some item2 =>
      cases hv2 : FrontendCache.isValid now item2 with
      | true =>
        exfalso
        simp only [FrontendCache.get, hm, FrontendCache.getFromStorage, hs, hv2,
          if_true] at h
        exact Option.some_ne_none _ h
      | false =>
        simp only [FrontendCache.get, hm, FrontendCache.getFromStorage, hs, hv2,
          Bool.false_eq_true, if_false]
        exact ⟨trivial, lookup_adelete_self _ _⟩
    | none =>
      simp only [FrontendCache.get, hm, FrontendCache.getFromStorage, hs]
      exact ⟨trivial, trivial⟩

theorem FrontendCache.get_nspace (st : FrontendCache α) (now : Nat) (k : String) :
    (FrontendCache.get st now k).2.nspace = st.nspace := by
  cases hm : List.lookup k st.memoryCache with
  | some item =>
    cases hv : FrontendCache.isValid now item with
    | true => simp only [FrontendCache.get, hm, hv, if_true]
    | false =>
      cases hs : List.lookup k st.localStore with
      | some item2 =>
        cases hv2 : FrontendCache.isValid now item2 with
        | true =>
          simp only [FrontendCache.get, hm, hv, Bool.false_eq_true, if_false,
            FrontendCache.getFromStorage, hs, hv2, if_true]
        | false =>
          simp only [FrontendCache.get, hm, hv, Bool.false_eq_true, if_false,
            FrontendCache.getFromStorage, hs, hv2]
      | none =>
        simp only [FrontendCache.get, hm, hv, Bool.false_eq_true, if_false,
          FrontendCache.getFromStorage, hs]
  | none =>
    cases hs : List.lookup k st.localStore with
    | some item2 =>
      cases hv2 : FrontendCache.isValid now item2 with
      | true =>
        simp only [FrontendCache.get, hm, FrontendCache.getFromStorage, hs, hv2, if_true]
      | false =>
        simp only [FrontendCache.get, hm, FrontendCache.getFromStorage, hs, hv2,
          Bool.false_eq_true, if_false]
    | none => simp only [FrontendCache.get, hm, FrontendCache.getFromStorage, hs]

/-- C9.  A `get` of a key all of whose entries (in the server store, or in
the client memory map and localStorage) have strictly passed their expiry
returns absent and deletes the expired entry from every layer that held it;
a `get` of a key with no entry at all returns absent and leaves the state
unchanged. -/
theorem claim9_lazy_expiry (c : ApiCache α) (st : FrontendCache α) (now : Nat)
    (k : String)
    (hserver : ∀ p ∈ c.cache, p.1 = k → p.2.expiry < now)
    (hmem : ∀ p ∈ st.memoryCache, p.1 = k → p.2.expiry < now)
    (hsto : ∀ p ∈ st.localStore, p.1 = k → p.2.expiry < now) :
    ((ApiCache.get c now k).1 = none ∧
      List.lookup k (ApiCache.get c now k).2.cache = none) ∧
    ((FrontendCache.get st now k).1 = none ∧
      List.lookup k (FrontendCache.get st now k).2.memoryCache = none ∧
      List.lookup k (FrontendCache.get st now k).2.localStore = none) ∧
    (List.lookup k c.cache = none → ApiCache.get c now k = (none, c)) ∧
    (List.lookup k st.memoryCache = none → List.lookup k st.localStore = none →
      FrontendCache.get st now k = (none, st)) := by
  have hs1 : (ApiCache.get c now k).1 = none := by
    cases hlk : List.lookup k c.cache with
    | none => simp only [ApiCache.get, hlk]
    | some item =>
      have hie : item.expiry < now := hserver (k, item) (lookup_eq_some_mem hlk) rfl
      simp only [ApiCache.get, hlk, if_pos (by omega : now > item.expiry)]
  have hc1 : (FrontendCache.get st now k).1 = none := by
    cases hm : List.lookup k st.memoryCache with
    | some item =>
      have hie : item.expiry < now := hmem (k, item) (lookup_eq_some_mem hm) rfl
      have hv : FrontendCache.isValid now item = false := by
        simp [FrontendCache.isValid]; omega
      cases hs : List.lookup k st.localStore with
      | some item2 =>
        have hie2 : item2.expiry < now := hsto (k, item2) (lookup_eq_some_mem hs) rfl
        have hv2 : FrontendCache.isValid now item2 = false := by
          simp [FrontendCache.isValid]; omega
        simp only [FrontendCache.get, hm, hv, Bool.false_eq_true, if_false,
          FrontendCache.getFromStorage, hs, hv2]
      | none =>
        simp only [FrontendCache.get, hm, hv, Bool.false_eq_true, if_false,
          FrontendCache.getFromStorage, hs]
    | none =>
      cases hs : List.lookup k st.localStore with
      | some item2 =>
        have hie2 : item2.expiry < now := hsto (k, item2) (lookup_eq_some_mem hs) rfl
        have hv2 : FrontendCache.isValid now item2 = false := by
          simp [FrontendCache.isValid]; omega
        simp only [FrontendCache.get, hm, FrontendCache.getFromStorage, hs, hv2,
          Bool.false_eq_true, if_false]
      | none =>
        simp only [FrontendCache.get, hm, FrontendCache.getFromStorage, hs]
  have hcl := client_get_lookup_none_of_miss hc1
  exact ⟨⟨hs1, server_get_lookup_none_of_miss hs1⟩, ⟨hc1, hcl.1, hcl.2⟩,
    fun h => server_get_eq_of_lookup_none now h,
    fun hm hs => client_get_eq_of_lookup_none now hm hs⟩

/-- C9, witness: the spec's concrete scenario read just past expiry
(`set` at 0 with ttl 1 800 000, `get` at 1 800 001), mirrored in both tiers,
with the entry present in memory and localStorage on the client. -/
theorem claim9_lazy_expiry_witness :
    (∀ p ∈ ([("ns:pred:", ⟨42, 1800000⟩)] : Store (SEntry Nat)),
      p.1 = "ns:pred:" → p.2.expiry < 1800001) ∧
    (∀ p ∈ ([("ns:pred:", ⟨42, 1800000, 0⟩)] : Store (CEntry Nat)),
      p.1 = "ns:pred:" → p.2.expiry < 1800001) ∧
    (∀ p ∈ ([("ns:pred:", ⟨42, 1800000, 0⟩)] : Store (CEntry Nat)),
      p.1 = "ns:pred:" → p.2.expiry < 1800001) ∧
    (((ApiCache.get (⟨[("ns:pred:", ⟨42, 1800000⟩)]⟩ : ApiCache Nat) 1800001 "ns:pred:").1 =
        none ∧
      List.lookup "ns:pred:"
        (ApiCache.get (⟨[("ns:pred:", ⟨42, 1800000⟩)]⟩ : ApiCache Nat) 1800001
          "ns:pred:").2.cache = none) ∧
    (((FrontendCache.get
        (⟨"ns", [("ns:pred:", ⟨42, 1800000, 0⟩)], [("ns:pred:", ⟨42, 1800000, 0⟩)]⟩ :
          FrontendCache Nat) 1800001 "ns:pred:").1 = none) ∧
      List.lookup "ns:pred:"
        (FrontendCache.get
          (⟨"ns", [("ns:pred:", ⟨42, 1800000, 0⟩)], [("ns:pred:", ⟨42, 1800000, 0⟩)]⟩ :
            FrontendCache Nat) 1800001 "ns:pred:").2.memoryCache = none ∧
      List.lookup "ns:pred:"
        (FrontendCache.get
          (⟨"ns", [("ns:pred:", ⟨42, 1800000, 0⟩)], [("ns:pred:", ⟨42, 1800000, 0⟩)]⟩ :
            FrontendCache Nat) 1800001 "ns:pred:").2.localStore = none) ∧
    (List.lookup "ns:pred:" ([("ns:pred:", ⟨42, 1800000⟩)] : Store (SEntry Nat)) = none →
      ApiCache.get (⟨[("ns:pred:", ⟨42, 1800000⟩)]⟩ : ApiCache Nat) 1800001 "ns:pred:" =
        (none, ⟨[("ns:pred:", ⟨42, 1800000⟩)]⟩)) ∧
    (List.lookup "ns:pred:" ([("ns:pred:", ⟨42, 1800000, 0⟩)] : Store (CEntry Nat)) = none →
      List.lookup "ns:pred:" ([("ns:pred:", ⟨42, 1800000, 0⟩)] : Store (CEntry Nat)) = none →
      FrontendCache.get
        (⟨"ns", [("ns:pred:", ⟨42, 1800000, 0⟩)], [("ns:pred:", ⟨42, 1800000, 0⟩)]⟩ :
          FrontendCache Nat) 1800001 "ns:pred:" =
        (none, ⟨"ns", [("ns:pred:", ⟨42, 1800000, 0⟩)], [("ns:pred:", ⟨42, 1800000, 0⟩)]⟩))) :=
  ⟨by decide, by decide, by decide,
    claim9_lazy_expiry (⟨[("ns:pred:", ⟨42, 1800000⟩)]⟩ : ApiCache Nat)
      (⟨"ns", [("ns:pred:", ⟨42, 1800000, 0⟩)], [("ns:pred:", ⟨42, 1800000, 0⟩)]⟩ :
        FrontendCache Nat) 1800001 "ns:pred:" (by decide) (by decide) (by decide)⟩

/-- C10.  Whenever a client `get` returns a payload, the key is present in
the in-memory map of the resulting state with that payload — in particular a
valid entry found only in localStorage has been copied back into memory. -/
theorem claim10_memory_restore (st : FrontendCache α) (now : Nat) (k : String)
    (v : α) (h : (FrontendCache.get st now k).1 = some v) :
    ∃ i, List.lookup k (FrontendCache.get st now k).2.memoryCache = some i ∧
      i.data = v := by
  cases hm : List.lookup k st.memoryCache with
  | some item =>
    cases hv : FrontendCache.isValid now item with
    | true =>
      simp only [FrontendCache.get, hm, hv, if_true] at h ⊢
      exact ⟨item, rfl, by simpa using h⟩
    | false =>
      cases hs : List.lookup k st.localStore with
      | some item2 =>
        cases hv2 : FrontendCache.isValid now item2 with
        | true =>
          simp only [FrontendCache.get, hm, hv, Bool.false_eq_true, if_false,
            FrontendCache.getFromStorage, hs, hv2, if_true] at h ⊢
          exact ⟨item2, lookup_aset_self _ _ _, by simpa using h⟩
        | false =>
          exfalso
          simp only [FrontendCache.get, hm, hv, Bool.false_eq_true, if_false,
            FrontendCache.getFromStorage, hs, hv2] at h
          exact Option.noConfusion h
      | none =>
        exfalso
        simp only [FrontendCache.get, hm, hv, Bool.false_eq_true, if_false,
          FrontendCache.getFromStorage, hs] at h
        exact Option.noConfusion h
  | none =>
    cases hs : List.lookup k st.localStore with
    | some item2 =>
      cases hv2 : FrontendCache.isValid now item2 with
      | true =>
        simp only [FrontendCache.get, hm, FrontendCache.getFromStorage, hs, hv2,
          if_true] at h ⊢
        exact ⟨item2, lookup_aset_self _ _ _, by simpa using h⟩
      | false =>
        exfalso
        simp only [FrontendCache.get, hm, FrontendCache.getFromStorage, hs, hv2,
          Bool.false_eq_true, if_false] at h
        exact Option.noConfusion h
    | none =>
      exfalso
      simp only [FrontendCache.get, hm, FrontendCache.getFromStorage, hs] at h
      exact Option.noConfusion h

/-- C10, witness: a valid entry present only in localStorage is served and
restored into the memory map. -/
theorem claim10_memory_restore_witness :
    (FrontendCache.get (⟨"aq", [], [("aq:x", ⟨5, 10, 0⟩)]⟩ : FrontendCache Nat)
        3 "aq:x").1 = some 5 ∧
    ∃ i, List.lookup "aq:x"
        (FrontendCache.get (⟨"aq", [], [("aq:x", ⟨5, 10, 0⟩)]⟩ : FrontendCache Nat)
          3 "aq:x").2.memoryCache = some i ∧ i.data = 5 :=
  ⟨by decide,
    claim10_memory_restore (⟨"aq", [], [("aq:x", ⟨5, 10, 0⟩)]⟩ : FrontendCache Nat)
      3 "aq:x" 5 (by decide)⟩

/-! ### Fetch-with-cache lemmas -/

theorem handler_miss_error (c : ApiCache α) (now : Nat) (airport date e : String)
    (h : (ApiCache.get c now (ApiCache.generateKey "flightaware"
      [("airport", airport), ("date", date)])).1 = none) :
    handler c now airport date (Except.error e) =
      ⟨none, (ApiCache.get c now (ApiCache.generateKey "flightaware"
        [("airport", airport), ("date", date)])).2, true⟩ := by
  simp only [handler]
  cases hget : ApiCache.get c now (ApiCache.generateKey "flightaware"
      [("airport", airport), ("date", date)]) with
  | mk r c₂ =>
    rw [hget] at h
    simp only at h
    subst h
    rfl

theorem handler_called_of_lookup_none (c : ApiCache α) (now : Nat)
    (airport date : String) (u : Except String α)
    (h : List.lookup (ApiCache.generateKey "flightaware"
      [("airport", airport), ("date", date)]) c.cache = none) :
    (handler c now airport date u).calledExternal = true := by
  simp only [handler]
  rw [server_get_eq_of_lookup_none now h]
  cases u <;> rfl

theorem fetch_miss_error (st : FrontendCache α) (now : Nat) (airport date e : String)
    (h : (FrontendCache.get st now (FrontendCache.key st.nspace "prediction"
      (some [("airport", airport), ("date", date)]))).1 = none) :
    fetchAndDisplayPrediction st now airport date (Except.error e) =
      ⟨none, (FrontendCache.get st now (FrontendCache.key st.nspace "prediction"
        (some [("airport", airport), ("date", date)]))).2, true⟩ := by
  simp only [fetchAndDisplayPrediction]
  cases hget : FrontendCache.get st now (FrontendCache.key st.nspace "prediction"
      (some [("airport", airport), ("date", date)])) with
  | mk r st₂ =>
    rw [hget] at h
    simp only at h
    subst h
    rfl

theorem fetch_called_of_lookup_none (st : FrontendCache α) (now : Nat)
    (airport date : String) (u : Except String α)
    (hm : List.lookup (FrontendCache.key st.nspace "prediction"
      (some [("airport", airport), ("date", date)])) st.memoryCache = none)
    (hs : List.lookup (FrontendCache.key st.nspace "prediction"
      (some [("airport", airport), ("date", date)])) st.localStore = none) :
    (fetchAndDisplayPrediction st now airport date u).calledExternal = true := by
  simp only [fetchAndDisplayPrediction]
  rw [client_get_eq_of_lookup_none now hm hs]
  cases u <;> rfl

/-- C1.  When the request misses both caches and the wrapped external
operation fails, neither tier stores anything under the request key
(the server keeps no binding in its map, the client keeps none in memory or
localStorage), and an identical request made afterwards — before any
successful fetch — invokes the external operation again in both tiers, so a
failure is never replayed from cache. -/
theorem claim1_no_negative_caching (c : ApiCache α) (st : FrontendCache α)
    (now now₂ : Nat) (airport date e₁ e₂ e₃ e₄ : String)
    (hmissS : (ApiCache.get c now (ApiCache.generateKey "flightaware"
      [("airport", airport), ("date", date)])).1 = none)
    (hmissC : (FrontendCache.get st now (FrontendCache.key st.nspace "prediction"
      (some [("airport", airport), ("date", date)]))).1 = none) :
    (handler c now airport date (Except.error e₁)).calledExternal = true ∧
    List.lookup (ApiCache.generateKey "flightaware" [("airport", airport), ("date", date)])
      (handler c now airport date (Except.error e₁)).state.cache = none ∧
    (handler (handler c now airport date (Except.error e₁)).state now₂ airport date
      (Except.error e₃)).calledExternal = true ∧
    (fetchAndDisplayPrediction st now airport date (Except.error e₂)).calledExternal = true ∧
    List.lookup (FrontendCache.key st.nspace "prediction"
        (some [("airport", airport), ("date", date)]))
      (fetchAndDisplayPrediction st now airport date (Except.error e₂)).state.memoryCache =
        none ∧
    List.lookup (FrontendCache.key st.nspace "prediction"
        (some [("airport", airport), ("date", date)]))
      (fetchAndDisplayPrediction st now airport date (Except.error e₂)).state.localStore =
        none ∧
    (fetchAndDisplayPrediction
      (fetchAndDisplayPrediction st now airport date (Except.error e₂)).state now₂
      airport date (Except.error e₄)).calledExternal = true := by
  have hS := handler_miss_error c now airport date e₁ hmissS
  have hSlk := server_get_lookup_none_of_miss hmissS
  have hC := fetch_miss_error st now airport date e₂ hmissC
  have hClk := client_get_lookup_none_of_miss hmissC
  have hNs : (fetchAndDisplayPrediction st now airport date (Except.error e₂)).state.nspace =
      st.nspace := by
    rw [hC]
    exact FrontendCache.get_nspace st now _
  refine ⟨by rw [hS], by rw [hS]; exact hSlk, ?_, by rw [hC], by rw [hC]; exact hClk.1,
    by rw [hC]; exact hClk.2, ?_⟩
  · apply handler_called_of_lookup_none
    rw [hS]
    exact hSlk
  · apply fetch_called_of_lookup_none
    · rw [hNs, hC]
      exact hClk.1
    · rw [hNs, hC]
      exact hClk.2

/-- C1, witness: empty caches at both tiers, the request `LIS / 2025-12-31`
failing twice in a row. -/
theorem claim1_no_negative_caching_witness :
    (ApiCache.get (⟨[]⟩ : ApiCache Nat) 0 (ApiCache.generateKey "flightaware"
      [("airport", "LIS"), ("date", "2025-12-31")])).1 = none ∧
    (FrontendCache.get (⟨"airportQueue", [], []⟩ : FrontendCache Nat) 0
      (FrontendCache.key "airportQueue" "prediction"
        (some [("airport", "LIS"), ("date", "2025-12-31")]))).1 = none ∧
    ((handler (⟨[]⟩ : ApiCache Nat) 0 "LIS" "2025-12-31"
        (Except.error "boom")).calledExternal = true ∧
      List.lookup (ApiCache.generateKey "flightaware"
          [("airport", "LIS"), ("date", "2025-12-31")])
        (handler (⟨[]⟩ : ApiCache Nat) 0 "LIS" "2025-12-31"
          (Except.error "boom")).state.cache = none ∧
      (handler (handler (⟨[]⟩ : ApiCache Nat) 0 "LIS" "2025-12-31"
          (Except.error "boom")).state 1 "LIS" "2025-12-31"
        (Except.error "boom")).calledExternal = true ∧
      (fetchAndDisplayPrediction (⟨"airportQueue", [], []⟩ : FrontendCache Nat) 0
        "LIS" "2025-12-31" (Except.error "down")).calledExternal = true ∧
      List.lookup (FrontendCache.key "airportQueue" "prediction"
          (some [("airport", "LIS"), ("date", "2025-12-31")]))
        (fetchAndDisplayPrediction (⟨"airportQueue", [], []⟩ : FrontendCache Nat) 0
          "LIS" "2025-12-31" (Except.error "down")).state.memoryCache = none ∧
      List.lookup (FrontendCache.key "airportQueue" "prediction"
          (some [("airport", "LIS"), ("date", "2025-12-31")]))
        (fetchAndDisplayPrediction (⟨"airportQueue", [], []⟩ : FrontendCache Nat) 0
          "LIS" "2025-12-31" (Except.error "down")).state.localStore = none ∧
      (fetchAndDisplayPrediction
        (fetchAndDisplayPrediction (⟨"airportQueue", [], []⟩ : FrontendCache Nat) 0
          "LIS" "2025-12-31" (Except.error "down")).state 1 "LIS" "2025-12-31"
        (Except.error "down")).calledExternal = true) :=
  ⟨by decide, by decide,
    claim1_no_negative_caching (⟨[]⟩ : ApiCache Nat)
      (⟨"airportQueue", [], []⟩ : FrontendCache Nat) 0 1 "LIS" "2025-12-31"
      "boom" "down" "boom" "down" (by decide) (by decide)⟩

/-- C6, behaviour at the failing input.  The claim (and the spec's §5/§7)
requires that when persistence fails, the transient in-memory copy still
serves a `get` of the same key within the same runtime lifetime, with the
recovery being `cleanup()` plus exactly one retried write whose own failure
is swallowed.  The retry accounting holds (`setWithPersistence` counts 2
write attempts when the first fails, 1 otherwise), and no failure is raised
(the model's `set` is total).  But when localStorage still holds an expired
entry under the same key and both write attempts fail, the recovery
`cleanup()` judges the key by the stale persisted copy and deletes the fresh
in-memory entry too: afterwards both layers are empty and `get` returns
absent within the same runtime, contradicting the claim. -/
theorem claim6_bug_eval :
    (FrontendCache.setWithPersistence
      (⟨"airportQueue", [], [("airportQueue:prediction:", ⟨9, 5, 0⟩)]⟩ : FrontendCache Nat)
      10 "airportQueue:prediction:" 7 1800000 true true).2 = 2 ∧
    (FrontendCache.setWithPersistence
      (⟨"airportQueue", [], [("airportQueue:prediction:", ⟨9, 5, 0⟩)]⟩ : FrontendCache Nat)
      10 "airportQueue:prediction:" 7 1800000 false false).2 = 1 ∧
    (FrontendCache.set
      (⟨"airportQueue", [], [("airportQueue:prediction:", ⟨9, 5, 0⟩)]⟩ : FrontendCache Nat)
      10 "airportQueue:prediction:" 7 1800000 true true).memoryCache = [] ∧
    (FrontendCache.set
      (⟨"airportQueue", [], [("airportQueue:prediction:", ⟨9, 5, 0⟩)]⟩ : FrontendCache Nat)
      10 "airportQueue:prediction:" 7 1800000 true true).localStore = [] ∧
    (FrontendCache.get
      (FrontendCache.set
        (⟨"airportQueue", [], [("airportQueue:prediction:", ⟨9, 5, 0⟩)]⟩ : FrontendCache Nat)
        10 "airportQueue:prediction:" 7 1800000 true true)
      10 "airportQueue:prediction:").1 = none := by
  decide

/-! ### Preservation of the transient-mirror invariant (claim C4) -/

theorem CInv_get (st : FrontendCache α) (now : Nat) (k : String) (h : CInv st) :
    CInv (FrontendCache.get st now k).2 := by
  cases hm : List.lookup k st.memoryCache with
  | some item =>
    cases hv : FrontendCache.isValid now item with
    | true =>
      simp only [FrontendCache.get, hm, hv, if_true]
      exact h
    | false =>
      cases hs : List.lookup k st.localStore with
      | some item2 =>
        cases hv2 : FrontendCache.isValid now item2 with
        | true =>
          simp only [FrontendCache.get, hm, hv, Bool.false_eq_true, if_false,
            FrontendCache.getFromStorage, hs, hv2, if_true]
          intro p hp
          rcases mem_aset.mp hp with he | ⟨hpm, hpk⟩
          · subst he
            exact hs
          · exact h p (mem_adelete.mp hpm).1
        | false =>
          simp only [FrontendCache.get, hm, hv, Bool.false_eq_true, if_false,
            FrontendCache.getFromStorage, hs, hv2]
          intro p hp
          have hpm := mem_adelete.mp hp
          rw [lookup_adelete_ne _ hpm.2]
          exact h p hpm.1
      | none =>
        simp only [FrontendCache.get, hm, hv, Bool.false_eq_true, if_false,
          FrontendCache.getFromStorage, hs]
        intro p hp
        exact h p (mem_adelete.mp hp).1
  | none =>
    cases hs : List.lookup k st.localStore with
    | some item2 =>
      cases hv2 : FrontendCache.isValid now item2 with
      | true =>
        simp only [FrontendCache.get, hm, FrontendCache.getFromStorage, hs, hv2, if_true]
        intro p hp
        rcases mem_aset.mp hp with he | ⟨hpm, _⟩
        · subst he
          exact hs
        · exact h p hpm
      | false =>
        simp only [FrontendCache.get, hm, FrontendCache.getFromStorage, hs, hv2,
          Bool.false_eq_true, if_false]
        intro p hp
        have hpk : p.1 ≠ k := by
          intro he
          apply lookup_none_not_mem hm
          show (k, p.2) ∈ st.memoryCache
          rw [← he]
          exact hp
        rw [lookup_adelete_ne _ hpk]
        exact h p hp
    | none =>
      simp only [FrontendCache.get, hm, FrontendCache.getFromStorage, hs]
      exact h

theorem CInv_set_ok (st : FrontendCache α) (now : Nat) (k : String) (v : α)
    (ttl : Nat) (h : CInv st) :
    CInv (FrontendCache.set st now k v ttl false false) := by
  intro p hp
  simp only [FrontendCache.set, FrontendCache.setWithPersistence, Bool.false_eq_true,
    if_false] at hp ⊢
  rcases mem_aset.mp hp with he | ⟨hpm, hpk⟩
  · subst he
    exact lookup_aset_self _ _ _
  · rw [lookup_aset_ne _ _ hpk]
    exact h p hpm

theorem CInv_clear (st : FrontendCache α) (ko : Option String) (h : CInv st) :
    CInv (FrontendCache.clear st ko) := by
  cases ko with
  | some k =>
    intro p hp
    simp only [FrontendCache.clear] at hp ⊢
    have hpm := mem_adelete.mp hp
    rw [lookup_adelete_ne _ hpm.2]
    exact h p hpm.1
  | none =>
    intro p hp
    simp only [FrontendCache.clear, FrontendCache.clearLocalStorage] at hp
    simp at hp

theorem CInv_cleanup (st : FrontendCache α) (now : Nat) (h : CInv st) :
    CInv (FrontendCache.cleanup st now) := by
  intro p hp
  simp only [FrontendCache.cleanup] at hp ⊢
  rcases List.mem_filter.mp hp with ⟨hpm, hcond⟩
  rw [lookup_filter_key st.localStore
    (fun k2 => !((FrontendCache.cleanupKeys st now).contains k2)) p.1]
  rw [if_pos hcond]
  exact h p hpm

theorem loadLoop_inv (ns : String) (now : Nat) :
    ∀ (fuel : Nat) (mem sto : Store (CEntry α)) (i : Nat),
      keysNodup sto →
      (∀ p ∈ mem, List.lookup p.1 sto = some p.2 ∧ now < p.2.expiry) →
      (∀ p ∈ (FrontendCache.loadLoop ns now fuel mem sto i).1,
        List.lookup p.1 (FrontendCache.loadLoop ns now fuel mem sto i).2 = some p.2 ∧
          now < p.2.expiry) ∧
        keysNodup (FrontendCache.loadLoop ns now fuel mem sto i).2 := by
  intro fuel
  induction fuel with
  | zero =>
    intro mem sto i nd hin
    simp only [FrontendCache.loadLoop]
    exact ⟨hin, nd⟩
  | succ fuel ih =>
    intro mem sto i nd hin
    by_cases h : i < sto.length
    · have hmem : sto.get ⟨i, h⟩ ∈ sto := sto.get_mem _ _
      have hlks : List.lookup (sto.get ⟨i, h⟩).1 sto = some (sto.get ⟨i, h⟩).2 :=
        mem_lookup_of_nodup nd hmem
      simp only [FrontendCache.loadLoop]
      rw [dif_pos h]
      by_cases hpre : strStartsWith (sto.get ⟨i, h⟩).1 ns
      · rw [if_pos hpre]
        by_cases hval : now < (sto.get ⟨i, h⟩).2.expiry
        · rw [if_pos hval]
          apply ih _ _ _ nd
          intro p hp
          rcases mem_aset.mp hp with he | ⟨hpm, hpk⟩
          · subst he
            exact ⟨hlks, hval⟩
          · exact hin p hpm
        · rw [if_neg hval]
          apply ih _ _ _ (keysNodup_adelete nd _)
          intro p hp
          have hold := hin p hp
          have hpk : p.1 ≠ (sto.get ⟨i, h⟩).1 := by
            intro he
            rw [he, hlks] at hold
            rcases hold with ⟨he2, hv2⟩
            rw [← Option.some.inj he2] at hv2
            exact hval hv2
          rw [lookup_adelete_ne _ hpk]
          exact hold
      · rw [if_neg hpre]
        exact ih _ _ _ nd hin
    · simp only [FrontendCache.loadLoop]
      rw [dif_neg h]
      exact ⟨hin, nd⟩

theorem CInv_init (ns : String) (now : Nat) (sto : Store (CEntry α))
    (nd : keysNodup sto) : CInv (FrontendCache.init ns now sto) := by
  intro p hp
  have := (loadLoop_inv ns now sto.length [] sto 0 nd (by intro p hp; simp at hp)).1 p
  simp only [FrontendCache.init] at hp ⊢
  exact (this hp).1

theorem get_deletes_expired_persistent (st : FrontendCache α) (now : Nat)
    (k : String) (i : CEntry α) (hs : List.lookup k st.localStore = some i)
    (hexp : i.expiry ≤ now)
    (hmemexp : ∀ p ∈ st.memoryCache, p.1 = k → p.2.expiry ≤ now) :
    List.lookup k (FrontendCache.get st now k).2.localStore = none := by
  have hv2 : FrontendCache.isValid now i = false := by
    simp [FrontendCache.isValid]
    omega
  cases hm : List.lookup k st.memoryCache with
  | some item =>
    have hie : item.expiry ≤ now := hmemexp (k, item) (lookup_eq_some_mem hm) rfl
    have hv : FrontendCache.isValid now item = false := by
      simp [FrontendCache.isValid]
      omega
    simp only [FrontendCache.get, hm, hv, Bool.false_eq_true, if_false,
      FrontendCache.getFromStorage, hs, hv2]
    exact lookup_adelete_self _ _
  | none =>
    simp only [FrontendCache.get, hm, FrontendCache.getFromStorage, hs, hv2,
      Bool.false_eq_true, if_false]
    exact lookup_adelete_self _ _

theorem cleanup_deletes_expired (st : FrontendCache α) (now : Nat) (k : String)
    (i : CEntry α) (hs : (k, i) ∈ st.localStore)
    (hpre : strStartsWith k st.nspace = true) (hexp : i.expiry ≤ now) :
    List.lookup k (FrontendCache.cleanup st now).localStore = none := by
  simp only [FrontendCache.cleanup]
  rw [lookup_filter_key st.localStore
    (fun k2 => !((FrontendCache.cleanupKeys st now).contains k2)) k]
  rw [if_neg ?_]
  have hc : (FrontendCache.cleanupKeys st now).contains k = true :=
    (cleanupKeys_contains st now k).mpr ⟨i, hs, hpre, hexp⟩
  rw [hc]
  simp

/-- C4, counterexample.  The claim requires that after every operation each
transient entry is also loadable from persistent storage.  A `set` whose two
persistence attempts both fail stores the entry in memory only — exactly the
transient-only fallback the spec itself mandates elsewhere — so the invariant
is violated after that operation. -/
theorem claim4_counterexample :
    ¬ CInv (FrontendCache.set (⟨"airportQueue", [], []⟩ : FrontendCache Nat) 0
      "airportQueue:p:" 7 100 true true) := by
  decide

/-- C4, amended.  In the absence of persistence failures the transient-mirror
invariant holds: construction establishes it (from duplicate-free persisted
keys), and `get`, a fully persisted `set`, `clear`, and `cleanup` preserve
it.  Moreover an expired persistent entry discovered during a read (when no
valid memory entry shadows it) or during a sweep (when it carries the cache's
namespace) is deleted from persistent storage.  With failing persistence the
invariant can break — see the counterexample. -/
theorem claim4_amended_transient_mirror (ns : String) (sto : Store (CEntry α))
    (st : FrontendCache α) (now : Nat) (k : String) (v : α) (ttl : Nat)
    (ko : Option String) (nd : keysNodup sto) (hinv : CInv st) :
    CInv (FrontendCache.init ns now sto) ∧
    CInv (FrontendCache.get st now k).2 ∧
    CInv (FrontendCache.set st now k v ttl false false) ∧
    CInv (FrontendCache.clear st ko) ∧
    CInv (FrontendCache.cleanup st now) ∧
    (∀ i, List.lookup k st.localStore = some i → i.expiry ≤ now →
      (∀ p ∈ st.memoryCache, p.1 = k → p.2.expiry ≤ now) →
      List.lookup k (FrontendCache.get st now k).2.localStore = none) ∧
    (∀ i, (k, i) ∈ st.localStore → strStartsWith k st.nspace = true →
      i.expiry ≤ now →
      List.lookup k (FrontendCache.cleanup st now).localStore = none) :=
  ⟨CInv_init ns now sto nd, CInv_get st now k hinv, CInv_set_ok st now k v ttl hinv,
    CInv_clear st ko hinv, CInv_cleanup st now hinv,
    fun i hs hexp hmemexp => get_deletes_expired_persistent st now k i hs hexp hmemexp,
    fun i hs hpre hexp => cleanup_deletes_expired st now k i hs hpre hexp⟩

/-- C4, witness: a storage holding one live and one expired entry under the
namespace `"aq"`, a state mirroring the live entry, read and swept at
`now = 4`. -/
theorem claim4_amended_transient_mirror_witness :
    keysNodup ([("aq:a", ⟨1, 9, 0⟩), ("aq:b", ⟨2, 3, 0⟩)] : Store (CEntry Nat)) ∧
    CInv (⟨"aq", [("aq:a", ⟨1, 9, 0⟩)],
      [("aq:a", ⟨1, 9, 0⟩), ("aq:b", ⟨2, 3, 0⟩)]⟩ : FrontendCache Nat) ∧
    (CInv (FrontendCache.init "aq" 4
        ([("aq:a", ⟨1, 9, 0⟩), ("aq:b", ⟨2, 3, 0⟩)] : Store (CEntry Nat))) ∧
      CInv (FrontendCache.get (⟨"aq", [("aq:a", ⟨1, 9, 0⟩)],
        [("aq:a", ⟨1, 9, 0⟩), ("aq:b", ⟨2, 3, 0⟩)]⟩ : FrontendCache Nat) 4 "aq:b").2 ∧
      CInv (FrontendCache.set (⟨"aq", [("aq:a", ⟨1, 9, 0⟩)],
        [("aq:a", ⟨1, 9, 0⟩), ("aq:b", ⟨2, 3, 0⟩)]⟩ : FrontendCache Nat) 4 "aq:b" 6 50
          false false) ∧
      CInv (FrontendCache.clear (⟨"aq", [("aq:a", ⟨1, 9, 0⟩)],
        [("aq:a", ⟨1, 9, 0⟩), ("aq:b", ⟨2, 3, 0⟩)]⟩ : FrontendCache Nat) (some "aq:a")) ∧
      CInv (FrontendCache.cleanup (⟨"aq", [("aq:a", ⟨1, 9, 0⟩)],
        [("aq:a", ⟨1, 9, 0⟩), ("aq:b", ⟨2, 3, 0⟩)]⟩ : FrontendCache Nat) 4) ∧
      (∀ i, List.lookup "aq:b"
          ([("aq:a", ⟨1, 9, 0⟩), ("aq:b", ⟨2, 3, 0⟩)] : Store (CEntry Nat)) = some i →
        i.expiry ≤ 4 →
        (∀ p ∈ ([("aq:a", ⟨1, 9, 0⟩)] : Store (CEntry Nat)), p.1 = "aq:b" →
          p.2.expiry ≤ 4) →
        List.lookup "aq:b"
          (FrontendCache.get (⟨"aq", [("aq:a", ⟨1, 9, 0⟩)],
            [("aq:a", ⟨1, 9, 0⟩), ("aq:b", ⟨2, 3, 0⟩)]⟩ : FrontendCache Nat) 4
            "aq:b").2.localStore = none) ∧
      (∀ i, ("aq:b", i) ∈
          ([("aq:a", ⟨1, 9, 0⟩), ("aq:b", ⟨2, 3, 0⟩)] : Store (CEntry Nat)) →
        strStartsWith "aq:b" "aq" = true → i.expiry ≤ 4 →
        List.lookup "aq:b"
          (FrontendCache.cleanup (⟨"aq", [("aq:a", ⟨1, 9, 0⟩)],
            [("aq:a", ⟨1, 9, 0⟩), ("aq:b", ⟨2, 3, 0⟩)]⟩ : FrontendCache Nat)
            4).localStore = none)) :=
  ⟨by decide, by decide,
    claim4_amended_transient_mirror "aq"
      ([("aq:a", ⟨1, 9, 0⟩), ("aq:b", ⟨2, 3, 0⟩)] : Store (CEntry Nat))
      (⟨"aq", [("aq:a", ⟨1, 9, 0⟩)],
        [("aq:a", ⟨1, 9, 0⟩), ("aq:b", ⟨2, 3, 0⟩)]⟩ : FrontendCache Nat)
      4 "aq:b" 6 50 (some "aq:a") (by decide) (by decide)⟩

end PTAirport
